import Mathlib

/-!
Verification of the `evm-arb-service` arbitrage engine (DeFiArbitraje).

The Rust source is shallowly embedded: the pure pricing functions of
`src/dex.rs` become `Nat`-valued functions (the Rust code uses `U256`
arithmetic, which panics rather than wraps on overflow/underflow, so the
functions are modelled on `Nat` over their defined domain, with the `u64`
subtraction `10_000 - fee_bps` rendered as truncated `Nat` subtraction);
the effectful route-composition, failover and circuit-breaker code becomes
explicit state passing, with the results of network calls supplied as
function parameters and fallibility rendered with `Except`/`Option`.
Floating-point-only diagnostic fields (`pnl_usd`, the `*1.15` gas
inflation) do not influence any control-flow decision verified here and
are omitted from the embedded `QuoteResult`.
-/

namespace ArbService

/-! ## dex.rs : constant-product math -/

/-- `amount_out_v2` from `src/dex.rs`: fee-adjusted constant-product
output.  Returns 0 if any of `amount_in`, `reserve_in`, `reserve_out` is
zero; otherwise `amount_in*(10000-fee_bps)*reserve_out /
(reserve_in*10000 + amount_in*(10000-fee_bps))` with floor division. -/
def amount_out_v2 (amount_in reserve_in reserve_out fee_bps : Nat) : Nat :=
  if amount_in = 0 ∨ reserve_in = 0 ∨ reserve_out = 0 then 0
  else
    let fee := 10000 - fee_bps
    let amount_in_with_fee := amount_in * fee
    let numerator := amount_in_with_fee * reserve_out
    let denominator := reserve_in * 10000 + amount_in_with_fee
    numerator / denominator

/-- `min_out_bps` from `src/dex.rs`: minimum acceptable output after a
slippage haircut of `slippage_bps` basis points, with floor division. -/
def min_out_bps (quoted_out slippage_bps : Nat) : Nat :=
  quoted_out * (10000 - slippage_bps) / 10000

example : amount_out_v2 1000 1000000 1000000 30 = 996 := by decide
example : min_out_bps 10000 25 = 9975 := by decide

/-- C1: `amount_out_v2` matches the fee-adjusted constant-product formula
when all of `amount_in`, `reserve_in`, `reserve_out` are non-zero, and
returns 0 whenever `amount_in = 0` or `reserve_in = 0`, for any fee. -/
theorem amount_out_v2_spec (amount_in reserve_in reserve_out fee_bps : Nat) :
    (amount_in ≠ 0 → reserve_in ≠ 0 → reserve_out ≠ 0 →
      amount_out_v2 amount_in reserve_in reserve_out fee_bps =
        amount_in * (10000 - fee_bps) * reserve_out /
          (reserve_in * 10000 + amount_in * (10000 - fee_bps))) ∧
    (amount_in = 0 ∨ reserve_in = 0 →
      amount_out_v2 amount_in reserve_in reserve_out fee_bps = 0) := by
  constructor
  · intro h1 h2 h3
    simp only [amount_out_v2, h1, h2, h3, or_self, if_false, false_or]
  · intro h
    have : amount_in = 0 ∨ reserve_in = 0 ∨ reserve_out = 0 := by tauto
    simp only [amount_out_v2, this, if_true]

/-- Witness for C1 at concrete inputs. -/
theorem amount_out_v2_spec_witness :
    amount_out_v2 1000 1000000 1000000 30 =
      1000 * (10000 - 30) * 1000000 / (1000000 * 10000 + 1000 * (10000 - 30)) ∧
    amount_out_v2 0 5 7 25 = 0 :=
  ⟨(amount_out_v2_spec 1000 1000000 1000000 30).1
      (by decide) (by decide) (by decide),
   (amount_out_v2_spec 0 5 7 25).2 (Or.inl rfl)⟩

/-! ## min_out_bps monotonicity (C3) -/

/-- C3 counterexample: `min_out_bps` is not strictly decreasing in
`slippage_bps` — at quote 1 the haircuts 1 bps and 2 bps both floor the
output to 0, so no strict decrease occurs between them. -/
theorem min_out_bps_not_strictly_decreasing :
    min_out_bps 1 1 = min_out_bps 1 2 ∧ (1 : Nat) < 2 ∧ (2 : Nat) ≤ 10000 := by
  decide

/-- C3 amended: `min_out_bps q 0 = q`; `min_out_bps` is monotonically
non-increasing in `slippage_bps` on `[0, 10000]`; and it is strictly
decreasing in `slippage_bps` whenever `q ≥ 10000` (so that the floor
division cannot absorb a one-bps step). -/
theorem min_out_bps_monotone_spec (q b1 b2 : Nat) :
    min_out_bps q 0 = q ∧
    (b1 ≤ b2 → b2 ≤ 10000 → min_out_bps q b2 ≤ min_out_bps q b1) ∧
    (10000 ≤ q → b1 < b2 → b2 ≤ 10000 →
      min_out_bps q b2 < min_out_bps q b1) := by
  refine ⟨?_, ?_, ?_⟩
  · simp [min_out_bps]
  · intro h12 _h2
    apply Nat.div_le_div_right
    exact Nat.mul_le_mul_left q (Nat.sub_le_sub_left h12 10000)
  · intro hq h12 h2
    have hrepr : 10000 - b1 = (10000 - b2) + (b2 - b1) := by omega
    have hstep : q * (10000 - b2) + 10000 ≤ q * (10000 - b1) := by
      have h1 : 1 ≤ b2 - b1 := by omega
      calc q * (10000 - b2) + 10000
          ≤ q * (10000 - b2) + q * (b2 - b1) := by
            have : q * 1 ≤ q * (b2 - b1) := Nat.mul_le_mul_left q h1
            omega
        _ = q * (10000 - b1) := by rw [hrepr, Nat.mul_add]
    have : q * (10000 - b2) / 10000 + 1 ≤ q * (10000 - b1) / 10000 := by
      have hdiv : (q * (10000 - b2) + 10000) / 10000 ≤
          q * (10000 - b1) / 10000 := Nat.div_le_div_right hstep
      rwa [Nat.add_div_right _ (by norm_num)] at hdiv
    simpa [min_out_bps, Nat.lt_iff_add_one_le] using this

/-- Witness for the amended C3 at concrete inputs. -/
theorem min_out_bps_monotone_spec_witness :
    min_out_bps 20000 0 = 20000 ∧
    min_out_bps 20000 7 ≤ min_out_bps 20000 3 ∧
    min_out_bps 20000 7 < min_out_bps 20000 3 :=
  ⟨(min_out_bps_monotone_spec 20000 3 7).1,
   (min_out_bps_monotone_spec 20000 3 7).2.1 (by decide) (by decide),
   (min_out_bps_monotone_spec 20000 3 7).2.2 (by decide) (by decide) (by decide)⟩

/-! ## amount_out_v2 bounds and monotonicity (C4, C10) -/

/-- Floor-division comparison by cross multiplication:
`a1 * b2 ≤ a2 * b1` forces `a1 / b1 ≤ a2 / b2`. -/
theorem nat_div_le_div_cross (a1 b1 a2 b2 : Nat) (hb1 : 0 < b1) (hb2 : 0 < b2)
    (h : a1 * b2 ≤ a2 * b1) : a1 / b1 ≤ a2 / b2 := by
  rw [Nat.le_div_iff_mul_le hb2]
  have h1 : a1 / b1 * b1 ≤ a1 := Nat.div_mul_le_self a1 b1
  have h2 : a1 / b1 * b2 * b1 ≤ a2 * b1 := by
    calc a1 / b1 * b2 * b1 = a1 / b1 * b1 * b2 := by ring
      _ ≤ a1 * b2 := Nat.mul_le_mul_right b2 h1
      _ ≤ a2 * b1 := h
  exact Nat.le_of_mul_le_mul_right h2 hb1

/-- C4: for positive reserves and any fee in `[0, 10000)`, `amount_out_v2`
is monotonically non-decreasing in the input amount. -/
theorem amount_out_v2_monotone (reserve_in reserve_out fee_bps : Nat)
    (hin : 0 < reserve_in) (hout : 0 < reserve_out) (hfee : fee_bps < 10000)
    (a1 a2 : Nat) (h12 : a1 ≤ a2) :
    amount_out_v2 a1 reserve_in reserve_out fee_bps ≤
      amount_out_v2 a2 reserve_in reserve_out fee_bps := by
  rcases Nat.eq_zero_or_pos a1 with h1 | h1
  · simp [amount_out_v2, h1]
  · have h2 : 0 < a2 := lt_of_lt_of_le h1 h12
    have hF : 0 < 10000 - fee_bps := by omega
    simp only [amount_out_v2, Nat.pos_iff_ne_zero.mp h1, Nat.pos_iff_ne_zero.mp h2,
      Nat.pos_iff_ne_zero.mp hin, Nat.pos_iff_ne_zero.mp hout, or_self, false_or,
      if_false]
    apply nat_div_le_div_cross
    · positivity
    · positivity
    · set F := 10000 - fee_bps
      have key : a1 * F * reserve_out * (reserve_in * 10000) ≤
          a2 * F * reserve_out * (reserve_in * 10000) := by
        have := Nat.mul_le_mul_right (F * reserve_out * (reserve_in * 10000)) h12
        calc a1 * F * reserve_out * (reserve_in * 10000)
            = a1 * (F * reserve_out * (reserve_in * 10000)) := by ring
          _ ≤ a2 * (F * reserve_out * (reserve_in * 10000)) := this
          _ = a2 * F * reserve_out * (reserve_in * 10000) := by ring
      calc a1 * F * reserve_out * (reserve_in * 10000 + a2 * F)
          = a1 * F * reserve_out * (reserve_in * 10000) +
              a1 * a2 * F * F * reserve_out := by ring
        _ ≤ a2 * F * reserve_out * (reserve_in * 10000) +
              a1 * a2 * F * F * reserve_out := by omega
        _ = a2 * F * reserve_out * (reserve_in * 10000 + a1 * F) := by ring

/-- Witness for C4 at concrete inputs. -/
theorem amount_out_v2_monotone_witness :
    amount_out_v2 1000 1000000 1000000 30 ≤
      amount_out_v2 2000 1000000 1000000 30 :=
  amount_out_v2_monotone 1000000 1000000 30 (by decide) (by decide) (by decide)
    1000 2000 (by decide)

/-- C10: for any input amount and input reserve, if the output reserve is
positive and the fee is at most 10000 bps, the quoted output is strictly
below the pool's output-side reserve. -/
theorem amount_out_v2_lt_reserve_out (amount_in reserve_in reserve_out fee_bps : Nat)
    (_hfee : fee_bps ≤ 10000) (hout : 0 < reserve_out) :
    amount_out_v2 amount_in reserve_in reserve_out fee_bps < reserve_out := by
  by_cases hz : amount_in = 0 ∨ reserve_in = 0 ∨ reserve_out = 0
  · simpa [amount_out_v2, hz] using hout
  · push_neg at hz
    obtain ⟨ha, hin, _⟩ := hz
    simp only [amount_out_v2, ha, hin, Nat.pos_iff_ne_zero.mp hout, or_self,
      false_or, if_false]
    set F := 10000 - fee_bps
    set A := amount_in * F with hA
    have hD : 0 < reserve_in * 10000 := by
      have : 1 ≤ reserve_in := Nat.one_le_iff_ne_zero.mpr hin
      omega
    rw [Nat.div_lt_iff_lt_mul (by omega : 0 < reserve_in * 10000 + A)]
    calc A * reserve_out < A * reserve_out + reserve_out * (reserve_in * 10000) := by
          have : 0 < reserve_out * (reserve_in * 10000) := Nat.mul_pos hout hD
          omega
      _ = reserve_out * (reserve_in * 10000 + A) := by ring

/-- Witness for C10 at concrete inputs. -/
theorem amount_out_v2_lt_reserve_out_witness :
    amount_out_v2 123456789 1000 55 40 < 55 :=
  amount_out_v2_lt_reserve_out 123456789 1000 55 40 (by decide) (by decide)

/-! ## router.rs : route composition

Addresses are modelled as `Nat` (well-formedness of the 20-byte hex form
is checked upstream by `parse_addr`); the zero address is `0`.  The
results of the network reads inside `quote_on_dex` (pair address, token0,
reserves) are passed as parameters, and the whole adapter is passed as a
function parameter to the route composers, mirroring the async calls. -/

/-- `LegKind` from `src/calldata.rs` (as used by `router.rs`): the tagged
union of the three protocol leg shapes. -/
inductive LegKind where
  | v2 (router : Nat) (path : List Nat)
  | v3 (router tokenIn tokenOut : Nat) (fee_bps : Nat)
  | solidly (router pair : Nat) (stable : Bool) (tokenIn : Nat)
  deriving DecidableEq, Repr

/-- `LegQuote` from `src/calldata.rs`. -/
structure LegQuote where
  kind : LegKind
  deriving DecidableEq, Repr

/-- `QuoteResult` from `src/router.rs`, restricted to its integer fields.
`gas_total` is the raw sum of the per-leg gas constants (the `*1.15`
inflation and the float-valued `pnl_usd`/`gas_price` diagnostics do not
feed any accept/reject decision and are not modelled). -/
structure QuoteResult where
  amount_in : Nat
  amount_out : Nat
  gas_total : Nat
  legs : List LegQuote
  deriving DecidableEq, Repr

/-- `DexConfig` from `src/config.rs`, restricted to the name field used
by `dex_order` construction in `quote_triangle`. -/
structure DexConfig where
  name : String
  deriving DecidableEq, Repr

/-- ASCII lowercasing of one character, mirroring what Rust's
`to_lowercase` does on the ASCII exchange names in play. -/
def char_to_lower (c : Char) : Char :=
  if 65 ≤ c.toNat ∧ c.toNat ≤ 90 then Char.ofNat (c.toNat + 32) else c

def chars_starts_with : List Char → List Char → Bool
  | [], _ => true
  | _ :: _, [] => false
  | p :: ps, s :: ss => p == s && chars_starts_with ps ss

def chars_contains (s pat : List Char) : Bool :=
  match s with
  | [] => chars_starts_with pat []
  | _ :: rest => chars_starts_with pat s || chars_contains rest pat

/-- Substring test mirroring Rust's `name.to_lowercase().contains(pat)`
on character lists. -/
def str_contains_lower (s : String) (pat : List Char) : Bool :=
  chars_contains (s.toList.map char_to_lower) pat

/-- The `"v2"` arm of `quote_on_dex` from `src/router.rs`.  The chain
reads are supplied as parameters: `pair_addr` (factory `getPair` result,
checked non-zero by `ensure_not_zero`), `t0` (pool token0) and `r0, r1`
(reserves).  The fee is 25 bps for PancakeV2-branded exchanges, else
30 bps; a zero computed output is reported as `none` (no liquidity). -/
def quote_on_dex_v2 (pair_addr t0 r0 r1 : Nat) (dexName : String)
    (router token_in token_out : Nat) (amount_in : Nat) :
    Except String (Option (Nat × LegQuote × Nat)) :=
  if pair_addr = 0 then .error "v2_get_pair returned zero address"
  else
    let resv := if token_in = t0 then (r0, r1) else (r1, r0)
    let fee_bps := if str_contains_lower dexName "pancakev2".toList then 25 else 30
    let out := amount_out_v2 amount_in resv.1 resv.2 fee_bps
    if out = 0 then .ok none
    else .ok (some (out, ⟨.v2 router [token_in, token_out]⟩, 110000))

/-- `quote_cross_dex_pair` from `src/router.rs`: two-leg round trip.
`quote_a` is `quote_on_dex` on `dex_a` for A→B and `quote_b` on `dex_b`
for B→A, each as a function of its input amount.  After both legs
succeed, the quote is kept only when `min_out_bps(out, slip) > amount_in`
and `out > amount_in`. -/
def quote_cross_dex_pair
    (quote_a quote_b : Nat → Except String (Option (Nat × LegQuote × Nat)))
    (amount_in slip_bps : Nat) : Except String (Option QuoteResult) :=
  match quote_a amount_in with
  | .error e => .error e
  | .ok none => .ok none
  | .ok (some (out1, leg1, gas1)) =>
    match quote_b out1 with
    | .error e => .error e
    | .ok none => .ok none
    | .ok (some (out2, leg2, gas2)) =>
      if min_out_bps out2 slip_bps ≤ amount_in then .ok none
      else if out2 ≤ amount_in then .ok none
      else .ok (some ⟨amount_in, out2, gas1 + gas2, [leg1, leg2]⟩)

/-- Exchange trial order built per leg in `quote_triangle`: preferred
exchanges first (in listed order, resolved against the chain's dex list),
then all remaining configured exchanges in declared order. -/
def dex_order (preferred : List String) (dexes : List DexConfig) : List DexConfig :=
  (preferred.filterMap (fun n => dexes.find? (fun d => d.name == n))) ++
    dexes.filter (fun d => !(preferred.any (fun n => n == d.name)))

/-- The inner loop of each `quote_triangle` leg: try the exchanges in
order, propagate a hard error, and keep the first non-`none` quote. -/
def try_dexes (q : DexConfig → Nat → Except String (Option (Nat × LegQuote × Nat))) :
    List DexConfig → Nat → Except String (Option (Nat × LegQuote × Nat))
  | [], _ => .ok none
  | d :: rest, amount =>
    match q d amount with
    | .error e => .error e
    | .ok (some r) => .ok (some r)
    | .ok none => try_dexes q rest amount

/-- `quote_triangle` from `src/router.rs`: three-leg round trip A→B→C→A.
`q` is `quote_on_dex` as a function of (dex, token-in, token-out, amount);
each leg tries the `dex_order` exchanges and a leg with no quote aborts
the route.  The final checks match `quote_cross_dex_pair`. -/
def quote_triangle
    (q : DexConfig → String → String → Nat → Except String (Option (Nat × LegQuote × Nat)))
    (net_dexes : List DexConfig) (preferred : List String)
    (a b c : String) (amount_in slip_bps : Nat) : Except String (Option QuoteResult) :=
  match try_dexes (fun d => q d a b) (dex_order preferred net_dexes) amount_in with
  | .error e => .error e
  | .ok none => .ok none
  | .ok (some (o1, l1, g1)) =>
    match try_dexes (fun d => q d b c) (dex_order preferred net_dexes) o1 with
    | .error e => .error e
    | .ok none => .ok none
    | .ok (some (o2, l2, g2)) =>
      match try_dexes (fun d => q d c a) (dex_order preferred net_dexes) o2 with
      | .error e => .error e
      | .ok none => .ok none
      | .ok (some (o3, l3, g3)) =>
        if min_out_bps o3 slip_bps ≤ amount_in then .ok none
        else if o3 ≤ amount_in then .ok none
        else .ok (some ⟨amount_in, o3, g1 + g2 + g3, [l1, l2, l3]⟩)

/-- C2: both route composers accept a route only when the final output
strictly exceeds the input and the slippage-adjusted minimum output
strictly exceeds the input; whenever the composed legs all quote but
either condition fails, they return `none` — no accepted route has
`min_out ≤ amount_in`. -/
theorem accepted_route_beats_input
    (quote_a quote_b : Nat → Except String (Option (Nat × LegQuote × Nat)))
    (q : DexConfig → String → String → Nat → Except String (Option (Nat × LegQuote × Nat)))
    (net_dexes : List DexConfig) (preferred : List String) (a b c : String)
    (amount_in slip_bps : Nat) :
    (∀ qr, quote_cross_dex_pair quote_a quote_b amount_in slip_bps = .ok (some qr) →
      amount_in < qr.amount_out ∧ amount_in < min_out_bps qr.amount_out slip_bps) ∧
    (∀ qr, quote_triangle q net_dexes preferred a b c amount_in slip_bps = .ok (some qr) →
      amount_in < qr.amount_out ∧ amount_in < min_out_bps qr.amount_out slip_bps) ∧
    (∀ o1 l1 g1 o2 l2 g2,
      quote_a amount_in = .ok (some (o1, l1, g1)) →
      quote_b o1 = .ok (some (o2, l2, g2)) →
      min_out_bps o2 slip_bps ≤ amount_in ∨ o2 ≤ amount_in →
      quote_cross_dex_pair quote_a quote_b amount_in slip_bps = .ok none) ∧
    (∀ o1 l1 g1 o2 l2 g2 o3 l3 g3,
      try_dexes (fun d => q d a b) (dex_order preferred net_dexes) amount_in
        = .ok (some (o1, l1, g1)) →
      try_dexes (fun d => q d b c) (dex_order preferred net_dexes) o1
        = .ok (some (o2, l2, g2)) →
      try_dexes (fun d => q d c a) (dex_order preferred net_dexes) o2
        = .ok (some (o3, l3, g3)) →
      min_out_bps o3 slip_bps ≤ amount_in ∨ o3 ≤ amount_in →
      quote_triangle q net_dexes preferred a b c amount_in slip_bps = .ok none) := by
  refine ⟨?_, ?_, ?_, ?_⟩
  · intro qr hq
    unfold quote_cross_dex_pair at hq
    split at hq
    · simp at hq
    · simp at hq
    · split at hq
      · simp at hq
      · simp at hq
      · split_ifs at hq with h1 h2
        · simp at hq
        · simp at hq
        · simp only [Except.ok.injEq, Option.some.injEq] at hq
          subst hq
          dsimp only
          exact ⟨by omega, by omega⟩
  · intro qr hq
    unfold quote_triangle at hq
    split at hq
    · simp at hq
    · simp at hq
    · split at hq
      · simp at hq
      · simp at hq
      · split at hq
        · simp at hq
        · simp at hq
        · split_ifs at hq with h1 h2
          · simp at hq
          · simp at hq
          · simp only [Except.ok.injEq, Option.some.injEq] at hq
            subst hq
            dsimp only
            exact ⟨by omega, by omega⟩
  · intro o1 l1 g1 o2 l2 g2 ha hb hcond
    unfold quote_cross_dex_pair
    simp only [ha, hb]
    rcases hcond with h | h
    · rw [if_pos h]
    · by_cases h1 : min_out_bps o2 slip_bps ≤ amount_in
      · rw [if_pos h1]
      · rw [if_neg h1, if_pos h]
  · intro o1 l1 g1 o2 l2 g2 o3 l3 g3 h1 h2 h3 hcond
    unfold quote_triangle
    simp only [h1, h2, h3]
    rcases hcond with h | h
    · rw [if_pos h]
    · by_cases hm : min_out_bps o3 slip_bps ≤ amount_in
      · rw [if_pos hm]
      · rw [if_neg hm, if_pos h]

/-- Witness for C2: a concrete profitable two-leg and three-leg route is
accepted with output and minimum output above the input, and a concrete
losing second leg makes the composer return `none`. -/
theorem accepted_route_beats_input_witness :
    (1000 < (3000 : Nat) ∧ 1000 < min_out_bps 3000 0) ∧
    (1000 < (4000 : Nat) ∧ 1000 < min_out_bps 4000 0) ∧
    quote_cross_dex_pair
      (fun _ => .ok (some (2000, ⟨.v2 1 [2, 3]⟩, 110000)))
      (fun _ => .ok (some (500, ⟨.v2 4 [3, 2]⟩, 110000))) 1000 0 = .ok none := by
  have hmain := accepted_route_beats_input
    (fun _ => .ok (some (2000, ⟨.v2 1 [2, 3]⟩, 110000)))
    (fun _ => .ok (some (3000, ⟨.v2 4 [3, 2]⟩, 110000)))
    (fun _ _ _ amt => .ok (some (amt + 1000, ⟨.v2 1 [2, 3]⟩, 110000)))
    [⟨"uniswap"⟩] [] "A" "B" "C" 1000 0
  have hlose := accepted_route_beats_input
    (fun _ => .ok (some (2000, ⟨.v2 1 [2, 3]⟩, 110000)))
    (fun _ => .ok (some (500, ⟨.v2 4 [3, 2]⟩, 110000)))
    (fun _ _ _ amt => .ok (some (amt + 1000, ⟨.v2 1 [2, 3]⟩, 110000)))
    [⟨"uniswap"⟩] [] "A" "B" "C" 1000 0
  refine ⟨hmain.1 ⟨1000, 3000, 220000, [⟨.v2 1 [2, 3]⟩, ⟨.v2 4 [3, 2]⟩]⟩ rfl,
    hmain.2.1 ⟨1000, 4000, 330000,
      [⟨.v2 1 [2, 3]⟩, ⟨.v2 1 [2, 3]⟩, ⟨.v2 1 [2, 3]⟩]⟩ rfl,
    hlose.2.2.1 2000 ⟨.v2 1 [2, 3]⟩ 110000 500 ⟨.v2 4 [3, 2]⟩ 110000 rfl rfl
      (Or.inr (by decide))⟩

/-- A zero-guarded quote can only surface a positive output amount. -/
theorem if_zero_quote_pos (A : Nat) (p : LegQuote × Nat) (out : Nat) (l : LegQuote)
    (g : Nat)
    (h : (if A = 0 then (.ok none : Except String (Option (Nat × LegQuote × Nat)))
        else .ok (some (A, p))) = .ok (some (out, l, g))) : 0 < out := by
  by_cases h0 : A = 0
  · rw [if_pos h0] at h
    simp at h
  · rw [if_neg h0] at h
    simp only [Except.ok.injEq, Option.some.injEq, Prod.mk.injEq] at h
    obtain ⟨hA, -⟩ := h
    omega

/-- C5: the v2 adapter never returns a quote with a zero output amount
(a zero `amount_out_v2` is reported as `none`), and a leg that yields no
liquidity (`.ok none`) aborts the whole two-leg or three-leg route with
`.ok none` — never with a partial quote. -/
theorem leg_failure_aborts_route
    (pair_addr t0 r0 r1 : Nat) (dexName : String) (router token_in token_out : Nat)
    (quote_a quote_b : Nat → Except String (Option (Nat × LegQuote × Nat)))
    (q : DexConfig → String → String → Nat → Except String (Option (Nat × LegQuote × Nat)))
    (net_dexes : List DexConfig) (preferred : List String) (a b c : String)
    (amount_in slip_bps : Nat) :
    (∀ out l g,
      quote_on_dex_v2 pair_addr t0 r0 r1 dexName router token_in token_out amount_in
        = .ok (some (out, l, g)) → 0 < out) ∧
    (quote_a amount_in = .ok none →
      quote_cross_dex_pair quote_a quote_b amount_in slip_bps = .ok none) ∧
    (∀ o1 l1 g1, quote_a amount_in = .ok (some (o1, l1, g1)) →
      quote_b o1 = .ok none →
      quote_cross_dex_pair quote_a quote_b amount_in slip_bps = .ok none) ∧
    (try_dexes (fun d => q d a b) (dex_order preferred net_dexes) amount_in = .ok none →
      quote_triangle q net_dexes preferred a b c amount_in slip_bps = .ok none) ∧
    (∀ o1 l1 g1,
      try_dexes (fun d => q d a b) (dex_order preferred net_dexes) amount_in
        = .ok (some (o1, l1, g1)) →
      try_dexes (fun d => q d b c) (dex_order preferred net_dexes) o1 = .ok none →
      quote_triangle q net_dexes preferred a b c amount_in slip_bps = .ok none) ∧
    (∀ o1 l1 g1 o2 l2 g2,
      try_dexes (fun d => q d a b) (dex_order preferred net_dexes) amount_in
        = .ok (some (o1, l1, g1)) →
      try_dexes (fun d => q d b c) (dex_order preferred net_dexes) o1
        = .ok (some (o2, l2, g2)) →
      try_dexes (fun d => q d c a) (dex_order preferred net_dexes) o2 = .ok none →
      quote_triangle q net_dexes preferred a b c amount_in slip_bps = .ok none) := by
  refine ⟨?_, ?_, ?_, ?_, ?_, ?_⟩
  · intro out l g h
    unfold quote_on_dex_v2 at h
    split at h
    · simp at h
    · exact if_zero_quote_pos _ _ out l g h
  · intro ha
    unfold quote_cross_dex_pair
    simp only [ha]
  · intro o1 l1 g1 ha hb
    unfold quote_cross_dex_pair
    simp only [ha, hb]
  · intro h1
    unfold quote_triangle
    simp only [h1]
  · intro o1 l1 g1 h1 h2
    unfold quote_triangle
    simp only [h1, h2]
  · intro o1 l1 g1 o2 l2 g2 h1 h2 h3
    unfold quote_triangle
    simp only [h1, h2, h3]

/-- Witness for C5 at a concrete pool and concrete failing legs. -/
theorem leg_failure_aborts_route_witness :
    (0 : Nat) < 996 ∧
    quote_cross_dex_pair (fun _ => .ok none)
      (fun _ => .ok (some (2000, ⟨.v2 1 [2, 3]⟩, 110000))) 1000 0 = .ok none ∧
    quote_triangle (fun _ _ _ _ => .ok none) [⟨"uniswap"⟩] [] "A" "B" "C" 1000 0
      = .ok none := by
  have h := leg_failure_aborts_route 1 7 1000000 1000000 "uniswap" 9 7 8
    (fun _ => .ok none) (fun _ => .ok (some (2000, ⟨.v2 1 [2, 3]⟩, 110000)))
    (fun _ _ _ _ => .ok none) [⟨"uniswap"⟩] [] "A" "B" "C" 1000 0
  exact ⟨h.1 996 ⟨.v2 9 [7, 8]⟩ 110000 rfl, h.2.1 rfl, h.2.2.2.1 rfl⟩

/-! ## network.rs : endpoint failover

`with_failover` (`src/network.rs`) runs an operation against the current
endpoint; a retryable error (transport timeout/connect/JSON-RPC) switches
the index to `(index + 1) % endpoints.len()` and retries, a non-retryable
error returns immediately, and the `for _ in 0..endpoints.len()` loop
bounds the attempts by the endpoint count.  The operation's behaviour at
each endpoint is supplied as a function of the endpoint index. -/

/-- Result of one attempt of the operation against one endpoint:
success, or an error classified by `is_retryable`. -/
inductive OpResult (T : Type) where
  | ok (v : T)
  | err (retryable : Bool)
  deriving DecidableEq, Repr

/-- Outcome of `with_failover`: a success, an immediately propagated
non-retryable error, or exhaustion of all endpoints (the last transient
error is returned). -/
inductive FailoverOutcome (T : Type) where
  | success (v : T)
  | fatal
  | exhausted
  deriving DecidableEq, Repr

/-- The loop body of `with_failover`: `fuel` is the remaining iterations
of `for _ in 0..endpoints.len()`, `idx` the current endpoint index and
`att` the number of attempts made so far.  Returns the outcome together
with the final index and the total attempt count. -/
def with_failover_go {T : Type} (op : Nat → OpResult T) (n : Nat) :
    Nat → Nat → Nat → FailoverOutcome T × Nat × Nat
  | 0, idx, att => (.exhausted, idx, att)
  | fuel + 1, idx, att =>
    match op idx with
    | .ok v => (.success v, idx, att + 1)
    | .err true => with_failover_go op n fuel ((idx + 1) % n) (att + 1)
    | .err false => (.fatal, idx, att + 1)

/-- `with_failover` over `n` endpoints starting from index `idx0`. -/
def with_failover {T : Type} (op : Nat → OpResult T) (n idx0 : Nat) :
    FailoverOutcome T × Nat × Nat :=
  with_failover_go op n n idx0 0

/-- Inner induction for C6: if every index from `idx` up to `n - 2` fails
transiently and index `n - 1` succeeds, the loop ends at index `n - 1`
after consuming exactly its fuel. -/
theorem with_failover_go_success {T : Type} (op : Nat → OpResult T) (n : Nat) (v : T)
    (hok : op (n - 1) = .ok v) :
    ∀ fuel idx att, 0 < fuel → idx + fuel = n →
      (∀ i, idx ≤ i → i < n - 1 → op i = .err true) →
      with_failover_go op n fuel idx att = (.success v, n - 1, att + fuel) := by
  intro fuel
  induction fuel with
  | zero => intro idx att hpos _ _; omega
  | succ f ih =>
    intro idx att _ hn herr
    rcases Nat.eq_zero_or_pos f with hf | hf
    · subst hf
      have hidx : idx = n - 1 := by omega
      subst hidx
      simp [with_failover_go, hok]
    · have hlt : idx < n - 1 := by omega
      have herr0 : op idx = .err true := herr idx le_rfl hlt
      have hmod : (idx + 1) % n = idx + 1 := Nat.mod_eq_of_lt (by omega)
      simp only [with_failover_go, herr0, hmod]
      have := ih (idx + 1) (att + 1) hf (by omega)
        (fun i hi hilt => herr i (by omega) hilt)
      rw [this]
      ring_nf

/-- Exhaustion consumes exactly the remaining fuel, one attempt per
endpoint. -/
theorem with_failover_go_exhausted {T : Type} (op : Nat → OpResult T) (n : Nat) :
    ∀ fuel idx att i a, with_failover_go op n fuel idx att = (.exhausted, i, a) →
      a = att + fuel := by
  intro fuel
  induction fuel with
  | zero =>
    intro idx att i a h
    simp only [with_failover_go, Prod.mk.injEq] at h
    omega
  | succ f ih =>
    intro idx att i a h
    simp only [with_failover_go] at h
    cases hop : op idx with
    | ok v => simp only [hop] at h; simp at h
    | err r =>
      cases r
      · simp only [hop] at h; simp at h
      · simp only [hop] at h
        have := ih ((idx + 1) % n) (att + 1) i a h
        omega

/-- C6: a non-retryable error propagates immediately without switching
the endpoint after one attempt; with the first `n - 1` endpoints failing
transiently and the `n`-th succeeding, the call starting at index 0
succeeds in exactly `n` attempts and leaves the index at `n - 1`; and a
permanent (exhausted) failure only happens after `n` attempts. -/
theorem with_failover_spec {T : Type} (op : Nat → OpResult T) (n : Nat) (v : T)
    (idx0 : Nat) :
    (0 < n → op idx0 = .err false →
      with_failover op n idx0 = (.fatal, idx0, 1)) ∧
    (0 < n → (∀ i, i < n - 1 → op i = .err true) → op (n - 1) = .ok v →
      with_failover op n 0 = (.success v, n - 1, n)) ∧
    (∀ i a, with_failover op n idx0 = (.exhausted, i, a) → a = n) := by
  refine ⟨?_, ?_, ?_⟩
  · intro hn hfatal
    obtain ⟨m, rfl⟩ := Nat.exists_eq_succ_of_ne_zero (Nat.pos_iff_ne_zero.mp hn)
    simp [with_failover, with_failover_go, hfatal]
  · intro hn herr hok
    have := with_failover_go_success op n v hok n 0 0 hn (by omega)
      (fun i _ hi => herr i hi)
    simpa [with_failover] using this
  · intro i a h
    have := with_failover_go_exhausted op n n idx0 0 i a h
    omega

/-- Witness for C6: three endpoints, the first two transiently failing
and the third healthy — the call succeeds on attempt 3 with the index
left at endpoint 2. -/
theorem with_failover_spec_witness :
    with_failover (fun i => if i < 2 then .err true else .ok 42) 3 0
        = (.success 42, 2, 3) :=
  (with_failover_spec (fun i => if i < 2 then .err true else .ok 42) 3 42 0).2.1
    (by decide) (by decide) (by decide)

/-! ## route.rs : circuit breaker

`PnLTracker` (`src/route.rs`) tracks the consecutive-loss count (a `u32`
bumped with `saturating_add`) and the `Instant` of the last loss.
Instants are modelled as `Nat` timestamps with `elapsed = now - ts`
(monotone clock, `ts ≤ now`).  `scan_network` is modelled by its gating
and outcome-recording skeleton: the two early returns (cooldown, loss
cap) skip all quoting and leave the tracker untouched; otherwise the
scan runs and the tracker records the tick's outcome. -/

/-- Saturation bound of the `u32` loss counter. -/
def u32_max : Nat := 2 ^ 32 - 1

/-- `PnLTracker` from `src/route.rs`. -/
structure PnLTracker where
  consec_losses : Nat
  last_loss_ts : Option Nat
  deriving DecidableEq, Repr

/-- `PnLTracker::new`. -/
def PnLTracker.new : PnLTracker := ⟨0, none⟩

/-- `PnLTracker::on_success`: reset the counter and clear the loss
timestamp. -/
def on_success (_t : PnLTracker) : PnLTracker := ⟨0, none⟩

/-- `PnLTracker::on_loss` at time `now`: saturating increment and stamp. -/
def on_loss (now : Nat) (t : PnLTracker) : PnLTracker :=
  ⟨min (t.consec_losses + 1) u32_max, some now⟩

/-- `PnLTracker::should_cooldown`: true when at least one loss is on
record and the last loss is younger than the cooldown window. -/
def should_cooldown (now cooldown_sec : Nat) (t : PnLTracker) : Bool :=
  if t.consec_losses = 0 then false
  else
    match t.last_loss_ts with
    | some ts => now - ts < cooldown_sec
    | none => false

/-- Result of one `scan_network` call: whether the call reached the
quoting stage at all, and the tracker it leaves behind. -/
structure ScanResult where
  quoted : Bool
  pnl : PnLTracker
  deriving DecidableEq, Repr

/-- The gating and outcome-recording skeleton of `scan_network`
(`src/route.rs`): skip—leaving the tracker untouched—while cooling down
or while the loss cap is reached; otherwise scan (`quoted = true`) and
record the tick's outcome `any_success`. -/
def scan_network (cooldown_sec max_losses now : Nat) (any_success : Bool)
    (t : PnLTracker) : ScanResult :=
  if should_cooldown now cooldown_sec t then ⟨false, t⟩
  else if max_losses ≤ t.consec_losses then ⟨false, t⟩
  else if any_success then ⟨true, on_success t⟩
  else ⟨true, on_loss now t⟩

/-- Folding a run of losses at the given times over a tracker. -/
def losses : List Nat → PnLTracker → PnLTracker
  | [], t => t
  | now :: rest, t => losses rest (on_loss now t)

/-- A run of losses short of the `u32` saturation bound counts exactly. -/
theorem losses_count : ∀ (ns : List Nat) (t : PnLTracker),
    t.consec_losses + ns.length ≤ u32_max →
    (losses ns t).consec_losses = t.consec_losses + ns.length := by
  intro ns
  induction ns with
  | nil => intro t _; simp [losses]
  | cons now rest ih =>
    intro t hle
    simp only [losses, List.length_cons] at hle ⊢
    have hstep : (on_loss now t).consec_losses = t.consec_losses + 1 := by
      simp only [on_loss]
      omega
    rw [ih (on_loss now t) (by omega), hstep]
    omega

/-- C7: after exactly `max_losses` consecutive losses following a success
(and no intervening success), the loss counter equals `max_losses` and
the next `scan_network` call skips without quoting and without touching
the tracker; after any success the counter is exactly 0 and the loss
timestamp is cleared. -/
theorem circuit_breaker_trips (t : PnLTracker) (ns : List Nat)
    (cooldown_sec max_losses now : Nat) (any_success : Bool)
    (hlen : ns.length = max_losses) (hsat : max_losses ≤ u32_max) :
    (losses ns (on_success t)).consec_losses = max_losses ∧
    scan_network cooldown_sec max_losses now any_success (losses ns (on_success t))
      = ⟨false, losses ns (on_success t)⟩ ∧
    (on_success t).consec_losses = 0 ∧ (on_success t).last_loss_ts = none := by
  have hcount : (losses ns (on_success t)).consec_losses = max_losses := by
    have := losses_count ns (on_success t) (by simp [on_success]; omega)
    simpa [on_success, hlen] using this
  refine ⟨hcount, ?_, rfl, rfl⟩
  unfold scan_network
  by_cases hcd : should_cooldown now cooldown_sec (losses ns (on_success t)) = true
  · rw [if_pos hcd]
  · rw [if_neg hcd, if_pos (by omega : max_losses ≤ (losses ns (on_success t)).consec_losses)]

/-- Witness for C7: three recorded losses trip a breaker configured with
`max_losses_in_row = 3`. -/
theorem circuit_breaker_trips_witness :
    (losses [5, 6, 7] (on_success PnLTracker.new)).consec_losses = 3 ∧
    scan_network 60 3 100 true (losses [5, 6, 7] (on_success PnLTracker.new))
      = ⟨false, losses [5, 6, 7] (on_success PnLTracker.new)⟩ ∧
    (on_success PnLTracker.new).consec_losses = 0 ∧
    (on_success PnLTracker.new).last_loss_ts = none :=
  circuit_breaker_trips PnLTracker.new [5, 6, 7] 60 3 100 true rfl (by decide)

/-- C8 counterexample: with `max_losses_in_row = 1` and a 10 s cooldown,
a fresh engine reaches the tripped state `⟨1, some 0⟩` after one losing
scan at time 0, yet a scan at time 100 — long after the cooldown has
elapsed — still performs no quoting and leaves the state unchanged, so
the halt survives the cooldown window. -/
theorem tripped_state_not_time_recoverable :
    scan_network 10 1 0 false PnLTracker.new = ⟨true, ⟨1, some 0⟩⟩ ∧
    (10 : Nat) ≤ 100 - 0 ∧
    scan_network 10 1 100 true ⟨1, some 0⟩ = ⟨false, ⟨1, some 0⟩⟩ := by
  refine ⟨?_, by decide, rfl⟩
  decide

/-- C8 amended: once the cooldown window has elapsed since the last loss,
`should_cooldown` is false; a state still below the loss cap then quotes
again on the next scan, and any success immediately resets the tracker so
the next scan quotes (when the cap is positive); but in a tripped state
(`consec_losses ≥ max_losses_in_row`) every later scan skips quoting and
leaves the tracker unchanged no matter how much time passes — recovery by
mere passage of time never happens there. -/
theorem circuit_breaker_recovery (t : PnLTracker) (ts cooldown_sec max_losses now : Nat)
    (any_success : Bool) :
    (t.last_loss_ts = some ts → cooldown_sec ≤ now - ts →
      should_cooldown now cooldown_sec t = false) ∧
    (should_cooldown now cooldown_sec t = false → t.consec_losses < max_losses →
      (scan_network cooldown_sec max_losses now any_success t).quoted = true) ∧
    (0 < max_losses →
      (scan_network cooldown_sec max_losses now any_success (on_success t)).quoted
        = true) ∧
    (max_losses ≤ t.consec_losses →
      scan_network cooldown_sec max_losses now any_success t = ⟨false, t⟩) := by
  refine ⟨?_, ?_, ?_, ?_⟩
  · intro hts helapsed
    unfold should_cooldown
    rcases Nat.eq_zero_or_pos t.consec_losses with h0 | h0
    · simp [h0]
    · rw [if_neg (by omega), hts]
      simp only [decide_eq_false_iff_not, not_lt]
      omega
  · intro hcd hlt
    unfold scan_network
    rw [if_neg (by simp [hcd]), if_neg (by omega : ¬ max_losses ≤ t.consec_losses)]
    by_cases hs : any_success <;> simp [hs]
  · intro hpos
    unfold scan_network
    have hcd : should_cooldown now cooldown_sec (on_success t) = false := by
      simp [should_cooldown, on_success]
    rw [if_neg (by simp [hcd]), if_neg (by simp [on_success]; omega)]
    by_cases hs : any_success <;> simp [hs]
  · intro hcap
    unfold scan_network
    by_cases hcd : should_cooldown now cooldown_sec t = true
    · rw [if_pos hcd]
    · rw [if_neg hcd, if_pos hcap]

/-- Witness for the amended C8 at a concrete post-cooldown state below
the cap, and a concrete tripped state. -/
theorem circuit_breaker_recovery_witness :
    should_cooldown 100 10 ⟨1, some 0⟩ = false ∧
    (scan_network 10 2 100 false ⟨1, some 0⟩).quoted = true ∧
    (scan_network 10 2 100 true (on_success ⟨1, some 0⟩)).quoted = true ∧
    scan_network 10 1 100 false ⟨1, some 0⟩ = ⟨false, ⟨1, some 0⟩⟩ :=
  ⟨(circuit_breaker_recovery ⟨1, some 0⟩ 0 10 2 100 false).1 rfl (by decide),
   (circuit_breaker_recovery ⟨1, some 0⟩ 0 10 2 100 false).2.1 rfl (by decide),
   (circuit_breaker_recovery ⟨1, some 0⟩ 0 10 2 100 true).2.2.1 (by decide),
   (circuit_breaker_recovery ⟨1, some 0⟩ 0 10 1 100 false).2.2.2 (by decide)⟩

/-! ## exec.rs / mev.rs : gas pricing

The gas-price segment of `execute_with_opts` (`src/exec.rs`) is pure and
is embedded with the random draws of `jitter_value_bps` (`src/mev.rs`)
passed in explicitly (`up`: raise or lower; `j`: the jitter magnitude
drawn from `0..=bps`).  `U256` saturating addition becomes `min` against
the 256-bit cap. -/

/-- Saturating `U256` addition. -/
def sat_add_u256 (a b : Nat) : Nat := min (a + b) (2 ^ 256 - 1)

/-- `GasJitterCfg` from `src/mev.rs` restricted to the integer field that
`execute_with_opts` consumes. -/
structure GasJitterCfg where
  jitter_bps : Nat
  deriving DecidableEq, Repr

/-- `jitter_value_bps` from `src/mev.rs` with the random draws `up` and
`j` (with `j ≤ bps`) made explicit; `saturating_sub` is `Nat`
subtraction. -/
def jitter_value_bps (value bps : Nat) (up : Bool) (j : Nat) : Nat :=
  if bps = 0 then value
  else
    let delta := value * j / 10000
    if up then value + delta else value - delta

/-- `TxOpts` from `src/exec.rs` restricted to the fee fields. -/
structure TxOpts where
  gas_jitter : Option GasJitterCfg
  max_fee_per_gas : Option Nat
  max_priority_fee_per_gas : Option Nat
  legacy_gas_price : Option Nat
  deriving DecidableEq, Repr

/-- The gas-price selection of `execute_with_opts` (`src/exec.rs`): both
EIP-1559 fields fold into `min(max_fee, basefee + tip)` (saturating
addition), else the fixed legacy price is used; the chosen price, if any,
is jittered and set on the call (`none` = provider default pricing). -/
def set_gas_price (basefee : Nat) (opts : TxOpts) (up : Bool) (j : Nat) : Option Nat :=
  let effective : Option Nat :=
    match opts.max_fee_per_gas, opts.max_priority_fee_per_gas with
    | some max_fee, some tip =>
      let sum := sat_add_u256 basefee tip
      some (if max_fee < sum then max_fee else sum)
    | _, _ => opts.legacy_gas_price
  match effective with
  | some gp =>
    some (match opts.gas_jitter with
      | some cfg => jitter_value_bps gp cfg.jitter_bps up j
      | none => gp)
  | none => none

/-- C9: with both EIP-1559 fields supplied, the legacy gas price set on
the transaction is `min(max_fee, basefee + tip)` (saturating addition),
and jitter — when configured — is applied only to that folded value. -/
theorem eip1559_folds_to_min (basefee max_fee tip : Nat) (gj : Option GasJitterCfg)
    (legacy : Option Nat) (up : Bool) (j : Nat) :
    set_gas_price basefee ⟨gj, some max_fee, some tip, legacy⟩ up j =
      some (match gj with
        | some cfg =>
          jitter_value_bps (min max_fee (sat_add_u256 basefee tip)) cfg.jitter_bps up j
        | none => min max_fee (sat_add_u256 basefee tip)) := by
  unfold set_gas_price
  have hmin : (if max_fee < sat_add_u256 basefee tip then max_fee
      else sat_add_u256 basefee tip) = min max_fee (sat_add_u256 basefee tip) := by
    rcases Nat.lt_or_ge max_fee (sat_add_u256 basefee tip) with h | h
    · rw [if_pos h, Nat.min_eq_left (le_of_lt h)]
    · rw [if_neg (by omega), Nat.min_eq_right h]
  simp only [hmin]

end ArbService
